import Mathlib

/-!
Shallow embedding of `pickle_rick/__init__.py` (classes `BasicRick` and
`ExtendedPickleRick`) and proofs about its specification.

Python values that can appear in an internalized tree are modelled by the
inductive type `PyVal`.  A `BasicRick` instance is represented by its
`__dict__`, i.e. an association list from field names to values, in
insertion order (Python dicts preserve insertion order and have unique
keys).  External collaborators of the source file — the YAML/JSON parsers,
`os.getenv`, `eval`, and the OS environment — are passed to the embedded
functions as explicit parameters.
-/

namespace PickleRick

/-- Model of a Python value stored in a `BasicRick` tree: `None`, a bool,
an int, a string, a list, a raw (un-internalized) `dict`, or an
internalized child node (`BasicRick`/`ExtendedPickleRick` instance),
represented by its `__dict__` association list.  Floats and other exotic
values are outside the scope of the claims and are not modelled. -/
inductive PyVal where
  | vNone : PyVal
  | vBool : Bool → PyVal
  | vInt : Int → PyVal
  | vStr : String → PyVal
  | vList : List PyVal → PyVal
  | vDict : List (String × PyVal) → PyVal
  | vRick : List (String × PyVal) → PyVal

open PyVal

/-- Python truthiness (`bool(v)`) for the modelled values.  Note that a
`BasicRick` defines `__len__`, so a node is falsy exactly when its
`__dict__` is empty; likewise for lists, dicts and strings. -/
def truthy : PyVal → Bool
  | .vNone => false
  | .vBool b => b
  | .vInt n => decide (n ≠ 0)
  | .vStr s => !s.isEmpty
  | .vList xs => !xs.isEmpty
  | .vDict d => !d.isEmpty
  | .vRick f => !f.isEmpty

mutual

/-- `BasicRick._iternalize` (source lines 19-34): walk the items of the
input mapping; a dict value becomes a child node, a list value is rebuilt
element-wise when `deep` is true (dict elements become child nodes, all
other elements pass through), and every other value is stored unchanged. -/
def iternalize (deep : Bool) : List (String × PyVal) → List (String × PyVal)
  | [] => []
  | (k, v) :: rest => (k, buildVal deep v) :: iternalize deep rest

/-- How `BasicRick._iternalize` stores a single value (the body of its
`for` loop for one key). -/
def buildVal (deep : Bool) : PyVal → PyVal
  | .vDict d => .vRick (iternalize deep d)
  | .vList l => if deep then .vList (buildElems deep l) else .vList l
  | v => v

/-- The inner loop of `BasicRick._iternalize` over a list value when
`deep` is enabled: `BasicRick(i, deep)` for dict elements, `i` otherwise. -/
def buildElems (deep : Bool) : List PyVal → List PyVal
  | [] => []
  | .vDict d :: rest => .vRick (iternalize deep d) :: buildElems deep rest
  | i :: rest => i :: buildElems deep rest

end

mutual

/-- The `for k, v in dictionary.items()` loop of
`BasicRick._recursive_search` (source lines 122-130): for each value that
is a node or a raw dict, recursively search it and return the result if it
is truthy (`if value: return value`); otherwise continue with the
remaining items.  The recursive call `self._recursive_search(v.__dict__,
key)` is inlined here (top-level membership test first, then the loop) so
that the recursion is structural; `recursiveSearch` below packages it back
into the shape of the source function. -/
def searchLoop (key : String) : List (String × PyVal) → Option PyVal
  | [] => none
  | (_, v) :: rest =>
    match searchVal key v with
    | some u => if truthy u then some u else searchLoop key rest
    | none => searchLoop key rest

/-- One iteration of the `_recursive_search` loop body on a single value:
nodes and raw dicts are searched recursively (membership test, then loop),
every other value yields nothing. -/
def searchVal (key : String) : PyVal → Option PyVal
  | .vRick f =>
    (match List.lookup key f with
     | some v => some v
     | none => searchLoop key f)
  | .vDict d =>
    (match List.lookup key d with
     | some v => some v
     | none => searchLoop key d)
  | _ => none

end

/-- `BasicRick._recursive_search` (source lines 119-130): if the key is
present in the dictionary, return its value (even a falsy one); otherwise
run the loop over the items.  Falling off the end of the Python function
returns `None`, modelled by `Option.none`. -/
def recursiveSearch (key : String) (fields : List (String × PyVal)) : Option PyVal :=
  match List.lookup key fields with
  | some v => some v
  | none => searchLoop key fields

/-- Model of Python `str.lower()` restricted to ASCII (sufficient for the
keys appearing in the claims; Lean's `Char.toLower` only maps `A`-`Z`). -/
def pyLower (s : String) : String := ⟨s.data.map Char.toLower⟩

/-- Model of Python `str.upper()` restricted to ASCII. -/
def pyUpper (s : String) : String := ⟨s.data.map Char.toUpper⟩

/-- `BasicRick.get` (source lines 142-161): recursive search with the
exact key, falling back to the lowercased and then the uppercased key
whenever the value found so far is falsy (`if not value:`), and finally
returning `default` when the value is still falsy.  A `None` result of
`_recursive_search` and a falsy found value are indistinguishable here,
exactly as in the source. -/
def get (fields : List (String × PyVal)) (key : String) (default : PyVal) : PyVal :=
  let v0 := (recursiveSearch key fields).getD .vNone
  let v1 := if truthy v0 then v0 else (recursiveSearch (pyLower key) fields).getD .vNone
  let v2 := if truthy v1 then v1 else (recursiveSearch (pyUpper key) fields).getD .vNone
  if truthy v2 then v2 else default

/-- `BasicRick.has` (source lines 202-219): top-level membership test
first; when `deep` is true, additionally a recursive search whose result
is tested for truthiness (`if value: return True`). -/
def has (fields : List (String × PyVal)) (key : String) (deep : Bool) : Bool :=
  if (List.lookup key fields).isSome then true
  else if deep then truthy ((recursiveSearch key fields).getD .vNone)
  else false

mutual

/-- `BasicRick.dict` (source lines 187-200): deconstruct the node into a
plain mapping; child nodes are deconstructed recursively, every other
value (including lists, even lists containing nodes) is kept as is. -/
def dict : List (String × PyVal) → List (String × PyVal)
  | [] => []
  | (k, v) :: rest => (k, dictVal v) :: dict rest

/-- The per-value step of `BasicRick.dict`: `value.dict()` for child
nodes, identity otherwise. -/
def dictVal : PyVal → PyVal
  | .vRick f => .vDict (dict f)
  | v => v

end

/-- A single-quote character as a string (used by Python `repr` of
strings and of dict keys). -/
def sq : String := "\x27"

mutual

/-- Model of Python `repr` for the stored values, as far as
`BasicRick.__repr__` (source lines 84-87) depends on it: `repr` of a node
is `ClassName(k=repr(v), ...)` over its `__dict__` in insertion order;
scalars, lists and dicts print the standard Python way.  (String escaping
inside `repr` of a string is not modelled; the claims only use `repr`
through the equality test, applied to identically-constructed values.) -/
def pyRepr : PyVal → String
  | .vNone => "None"
  | .vBool b => if b then "True" else "False"
  | .vInt n => toString n
  | .vStr s => sq ++ s ++ sq
  | .vList l => "[" ++ reprElems l ++ "]"
  | .vDict d => "\x7b" ++ reprDictItems d ++ "\x7d"
  | .vRick f => "BasicRick(" ++ reprRickItems f ++ ")"

/-- Comma-separated `repr`s of list elements. -/
def reprElems : List PyVal → String
  | [] => ""
  | [x] => pyRepr x
  | x :: rest => pyRepr x ++ ", " ++ reprElems rest

/-- Comma-separated `'key': repr(value)` items of a raw dict. -/
def reprDictItems : List (String × PyVal) → String
  | [] => ""
  | [(k, v)] => sq ++ k ++ sq ++ ": " ++ pyRepr v
  | (k, v) :: rest => sq ++ k ++ sq ++ ": " ++ pyRepr v ++ ", " ++ reprDictItems rest

/-- Comma-separated `key=repr(value)` items, as produced by
`BasicRick.__repr__`'s `"{}={!r}".format(k, ...)`. -/
def reprRickItems : List (String × PyVal) → String
  | [] => ""
  | [(k, v)] => k ++ "=" ++ pyRepr v
  | (k, v) :: rest => k ++ "=" ++ pyRepr v ++ ", " ++ reprRickItems rest

end

/-- `BasicRick.__eq__` (source lines 89-90) between two nodes given by
their `__dict__`s: equality of the text representations. -/
def rickEq (a b : List (String × PyVal)) : Bool :=
  pyRepr (.vRick a) == pyRepr (.vRick b)

/-- The construction inputs handled by `BasicRick.__init__` (source lines
36-82), as listed in its docstring: an in-memory mapping, an open text
stream, or a string (a file path or raw YAML/JSON text).  A stream is
modelled by the text its first parse attempt reads plus the residual text
left for the second attempt (the stream has been consumed by then).  A
string input carries whether `os.path.isfile` holds for it and, if so,
the contents of that file. -/
inductive RickInput where
  | mapping : List (String × PyVal) → RickInput
  | stream : String → String → RickInput
  | strInput : String → Bool → String → RickInput

/-- Outcome of `BasicRick.__init__`: a built root node, the `ValueError`
of source line 82, or an exception of another type escaping the
constructor (no strategy's `try` block is active to swallow it). -/
inductive InitResult where
  | ok : List (String × PyVal) → InitResult
  | valueError : InitResult
  | typeError : InitResult

/-- One parse strategy of `BasicRick.__init__`: run a parser (YAML or
JSON, an external collaborator modelled as a function returning `none` on
a parse error) and internalize the result.  When the parser yields a
non-mapping (e.g. `None` or a scalar), `_iternalize` raises inside the
same `try` block (`.items()` on a non-dict), which the `except` swallows:
the strategy fails. -/
def parseAttempt (p : String → Option PyVal) (deep : Bool) (text : String) :
    Option (List (String × PyVal)) :=
  match p text with
  | some (.vDict d) => some (iternalize deep d)
  | _ => none

/-- The plain-string branch of `BasicRick.__init__` (source lines 68-80):
try the text as YAML, then as JSON; both failing falls through to the
`ValueError` at line 82. -/
def strBranch (yamlP jsonP : String → Option PyVal) (deep : Bool) (s : String) : InitResult :=
  match parseAttempt yamlP deep s with
  | some f => .ok f
  | none =>
    match parseAttempt jsonP deep s with
    | some f => .ok f
    | none => .valueError

/-- `BasicRick.__init__` (source lines 36-82) over the three documented
input shapes, parameterized by the external YAML and JSON parsers.  A dict
input is internalized directly.  A stream input is tried as YAML and then
as JSON (reading what the failed YAML attempt left over); if both fail,
control falls through — without a `return` or `raise` — to
`os.path.isfile(base)`, and `os.stat` on a stream raises a `TypeError`
that no handler catches.  A string input first tries the named file's
contents (when the path exists) as YAML then JSON, then tries the string
itself as YAML then JSON, and only then raises `ValueError`. -/
def rickInit (yamlP jsonP : String → Option PyVal) (deep : Bool) : RickInput → InitResult
  | .mapping m => .ok (iternalize deep m)
  | .stream contents residual =>
    match parseAttempt yamlP deep contents with
    | some f => .ok f
    | none =>
      match parseAttempt jsonP deep residual with
      | some f => .ok f
      | none => .typeError
  | .strInput s isFile fileContents =>
    if isFile then
      match parseAttempt yamlP deep fileContents with
      | some f => .ok f
      | none =>
        match parseAttempt jsonP deep fileContents with
        | some f => .ok f
        | none => strBranch yamlP jsonP deep s
    else strBranch yamlP jsonP deep s

mutual

/-- `ExtendedPickleRick._iternalize` (source lines 273-299), parameterized
by the OS environment (`env`, modelling `os.getenv`) and by the host
`eval` (`ev`, an external collaborator that may itself raise).  The result
is in `Except`: `_iternalize` raises `KeyError` when a placeholder lacks
its `load` field and `TypeError` when `os.getenv` is given a non-string
name; these exceptions escape the constructor for dict inputs. -/
def extIternalize (env : String → Option String) (ev : PyVal → Except String PyVal)
    (loadLambda deep : Bool) :
    List (String × PyVal) → Except String (List (String × PyVal))
  | [] => .ok []
  | (k, v) :: rest =>
    match extVal env ev loadLambda deep v with
    | .error e => .error e
    | .ok v2 =>
      match extIternalize env ev loadLambda deep rest with
      | .error e => .error e
      | .ok r2 => .ok ((k, v2) :: r2)

/-- How `ExtendedPickleRick._iternalize` stores a single value.  A dict
value whose `type` field equals `env` resolves through `os.getenv` with
the optional `default`; one whose `type` field equals `lambda` is passed
to `eval` when `load_lambda` is set and stored as the raw `load` value
otherwise; every other dict becomes a child node built by the same
variant, and lists behave as in the base class but with variant children. -/
def extVal (env : String → Option String) (ev : PyVal → Except String PyVal)
    (loadLambda deep : Bool) : PyVal → Except String PyVal
  | .vDict d =>
    (match List.lookup "type" d with
     | some (.vStr "env") =>
       (match List.lookup "load" d with
        | none => .error "KeyError"
        | some (.vStr name) =>
          (match List.lookup "default" d with
           | some dv =>
             .ok (match env name with
                  | some s => .vStr s
                  | none => dv)
           | none =>
             .ok (match env name with
                  | some s => .vStr s
                  | none => .vNone))
        | some _ => .error "TypeError")
     | some (.vStr "lambda") =>
       (match List.lookup "load" d with
        | none => .error "KeyError"
        | some lv => if loadLambda then ev lv else .ok lv)
     | _ =>
       (match extIternalize env ev loadLambda deep d with
        | .error e => .error e
        | .ok f => .ok (.vRick f)))
  | .vList l =>
    if deep then
      (match extElems env ev loadLambda deep l with
       | .error e => .error e
       | .ok l2 => .ok (.vList l2))
    else .ok (.vList l)
  | v => .ok v

/-- The inner loop of `ExtendedPickleRick._iternalize` over a list value
when `deep` is enabled: dict elements become variant child nodes
(`ExtendedPickleRick(i, deep, args['load_lambda'])`, i.e. the element's
items are internalized — the element itself is not checked for a
placeholder `type`), other elements pass through. -/
def extElems (env : String → Option String) (ev : PyVal → Except String PyVal)
    (loadLambda deep : Bool) : List PyVal → Except String (List PyVal)
  | [] => .ok []
  | .vDict d :: rest =>
    match extIternalize env ev loadLambda deep d with
    | .error e => .error e
    | .ok f =>
      match extElems env ev loadLambda deep rest with
      | .error e => .error e
      | .ok r2 => .ok (.vRick f :: r2)
  | i :: rest =>
    match extElems env ev loadLambda deep rest with
    | .error e => .error e
    | .ok r2 => .ok (i :: r2)

end

mutual

/-- The shape of mappings covered by the `dict(build(M)) == M` claim:
every value is a scalar or, recursively, a nested mapping — no lists and
no already-built nodes anywhere. -/
def plainFields : List (String × PyVal) → Bool
  | [] => true
  | (_, v) :: rest => plainVal v && plainFields rest

/-- Value-level side of `plainFields`. -/
def plainVal : PyVal → Bool
  | .vList _ => false
  | .vRick _ => false
  | .vDict d => plainFields d
  | _ => true

end

mutual

/-- The shape of a parsed mapping (what YAML/JSON loading can produce):
no already-built node appears as a dict value, at any dict nesting depth.
Lists are allowed; with `deep = false` neither the builder nor `dict()`
touches their contents. -/
def noRickFields : List (String × PyVal) → Bool
  | [] => true
  | (_, v) :: rest => noRickVal v && noRickFields rest

/-- Value-level side of `noRickFields`. -/
def noRickVal : PyVal → Bool
  | .vRick _ => false
  | .vDict d => noRickFields d
  | _ => true

end

/-- Whether a dict carries a reserved placeholder `type` field (`env` or
`lambda`), i.e. would be intercepted by `ExtendedPickleRick._iternalize`
instead of becoming a child node. -/
def placeholderTyped (d : List (String × PyVal)) : Bool :=
  match List.lookup "type" d with
  | some (.vStr "env") => true
  | some (.vStr "lambda") => true
  | _ => false

mutual

/-- Placeholder-free mappings: no nested mapping anywhere (as a dict
value, at any depth, or as a list element) carries a `type` field equal
to `env` or `lambda`. -/
def phFreeFields : List (String × PyVal) → Bool
  | [] => true
  | (_, v) :: rest => phFreeVal v && phFreeFields rest

/-- Value-level side of `phFreeFields`. -/
def phFreeVal : PyVal → Bool
  | .vDict d => !placeholderTyped d && phFreeFields d
  | .vList l => phFreeElems l
  | _ => true

/-- Element-level side of `phFreeFields`. -/
def phFreeElems : List PyVal → Bool
  | [] => true
  | i :: rest => phFreeVal i && phFreeElems rest

end

/-- The missing-value placeholder is falsy (Python `None`). -/
theorem truthy_vNone : truthy .vNone = false := rfl

/-- Sanity equation: on an item whose value is a child node, the inlined
loop of `searchLoop` computes exactly the source's
`value = self._recursive_search(v.__dict__, key); if value: return value`
step of `_recursive_search`. -/
theorem searchLoop_cons_rick (key j : String) (f rest : List (String × PyVal)) :
    searchLoop key ((j, .vRick f) :: rest) =
      match recursiveSearch key f with
      | some u => if truthy u then some u else searchLoop key rest
      | none => searchLoop key rest := rfl

/-- Sanity equation: same for an item whose value is a raw dict. -/
theorem searchLoop_cons_dict (key j : String) (d rest : List (String × PyVal)) :
    searchLoop key ((j, .vDict d) :: rest) =
      match recursiveSearch key d with
      | some u => if truthy u then some u else searchLoop key rest
      | none => searchLoop key rest := rfl

/-- Internalizing preserves the key list and transforms each value by
`buildVal`, so top-level lookup commutes with the build. -/
theorem lookup_iternalize (deep : Bool) (k : String) :
    ∀ m : List (String × PyVal),
      List.lookup k (iternalize deep m) = (List.lookup k m).map (buildVal deep)
  | [] => rfl
  | (a, v) :: rest => by
    simp only [iternalize, List.lookup]
    cases h : (k == a) with
    | true => rfl
    | false => simpa using lookup_iternalize deep k rest

/-- The deep list rebuild is an element-wise map: dict elements become
child nodes, everything else passes through. -/
theorem buildElems_eq_map (deep : Bool) :
    ∀ l : List PyVal,
      buildElems deep l = l.map (fun i =>
        match i with
        | .vDict d => .vRick (iternalize deep d)
        | _ => i)
  | [] => rfl
  | v :: rest => by
    cases v <;> simp [buildElems, buildElems_eq_map deep rest]

mutual

/-- On mappings whose values are scalars or nested mappings only,
`dict()` inverts the build exactly, for either setting of `deep`. -/
theorem dict_iternalize_plain (deep : Bool) :
    ∀ m, plainFields m = true → dict (iternalize deep m) = m
  | [], _ => rfl
  | (k, v) :: rest, h => by
    have hv : plainVal v = true := by
      have h2 := h
      simp only [plainFields, Bool.and_eq_true] at h2
      exact h2.1
    have hr : plainFields rest = true := by
      have h2 := h
      simp only [plainFields, Bool.and_eq_true] at h2
      exact h2.2
    simp [iternalize, dict, dictVal_buildVal_plain deep v hv,
      dict_iternalize_plain deep rest hr]

/-- Value-level side of `dict_iternalize_plain`. -/
theorem dictVal_buildVal_plain (deep : Bool) :
    ∀ v, plainVal v = true → dictVal (buildVal deep v) = v
  | .vNone, _ => rfl
  | .vBool _, _ => rfl
  | .vInt _, _ => rfl
  | .vStr _, _ => rfl
  | .vList _, h => by simp [plainVal] at h
  | .vRick _, h => by simp [plainVal] at h
  | .vDict d, h => by
    have hd : plainFields d = true := by simpa [plainVal] using h
    simp [buildVal, dictVal, dict_iternalize_plain deep d hd]

end

mutual

/-- With `deep = false`, `dict()` inverts the build on every mapping a
parser can produce (no pre-existing nodes as dict values); lists are left
untouched by both directions. -/
theorem dict_iternalize_noRick :
    ∀ m, noRickFields m = true → dict (iternalize false m) = m
  | [], _ => rfl
  | (k, v) :: rest, h => by
    have hv : noRickVal v = true := by
      have h2 := h
      simp only [noRickFields, Bool.and_eq_true] at h2
      exact h2.1
    have hr : noRickFields rest = true := by
      have h2 := h
      simp only [noRickFields, Bool.and_eq_true] at h2
      exact h2.2
    simp [iternalize, dict, dictVal_buildVal_noRick v hv,
      dict_iternalize_noRick rest hr]

/-- Value-level side of `dict_iternalize_noRick`. -/
theorem dictVal_buildVal_noRick :
    ∀ v, noRickVal v = true → dictVal (buildVal false v) = v
  | .vNone, _ => rfl
  | .vBool _, _ => rfl
  | .vInt _, _ => rfl
  | .vStr _, _ => rfl
  | .vList _, _ => rfl
  | .vRick _, h => by simp [noRickVal] at h
  | .vDict d, h => by
    have hd : noRickFields d = true := by simpa [noRickVal] using h
    simp [buildVal, dictVal, dict_iternalize_noRick d hd]

end

mutual

/-- On placeholder-free mappings the extended builder succeeds and builds
exactly what the base builder builds, for any environment, any `eval`,
and either setting of `load_lambda`. -/
theorem ext_eq_build_fields (env : String → Option String)
    (ev : PyVal → Except String PyVal) (ll deep : Bool) :
    ∀ m, phFreeFields m = true →
      extIternalize env ev ll deep m = .ok (iternalize deep m)
  | [], _ => rfl
  | (k, v) :: rest, h => by
    have hv : phFreeVal v = true := by
      have h2 := h
      simp only [phFreeFields, Bool.and_eq_true] at h2
      exact h2.1
    have hr : phFreeFields rest = true := by
      have h2 := h
      simp only [phFreeFields, Bool.and_eq_true] at h2
      exact h2.2
    simp [extIternalize, iternalize, ext_eq_build_val env ev ll deep v hv,
      ext_eq_build_fields env ev ll deep rest hr]

/-- Value-level side of `ext_eq_build_fields`. -/
theorem ext_eq_build_val (env : String → Option String)
    (ev : PyVal → Except String PyVal) (ll deep : Bool) :
    ∀ v, phFreeVal v = true → extVal env ev ll deep v = .ok (buildVal deep v)
  | .vNone, _ => rfl
  | .vBool _, _ => rfl
  | .vInt _, _ => rfl
  | .vStr _, _ => rfl
  | .vRick _, _ => rfl
  | .vList l, h => by
    have hl : phFreeElems l = true := by simpa [phFreeVal] using h
    cases deep with
    | false => simp [extVal, buildVal]
    | true => simp [extVal, buildVal, ext_eq_build_elems env ev ll true l hl]
  | .vDict d, h => by
    have hpt : placeholderTyped d = false := by
      have h2 := h
      simp only [phFreeVal, Bool.and_eq_true, Bool.not_eq_true'] at h2
      exact h2.1
    have hd : phFreeFields d = true := by
      have h2 := h
      simp only [phFreeVal, Bool.and_eq_true] at h2
      exact h2.2
    simp only [extVal, buildVal]
    split
    · rename_i heq
      simp [placeholderTyped, heq] at hpt
    · rename_i heq
      simp [placeholderTyped, heq] at hpt
    · simp [ext_eq_build_fields env ev ll deep d hd]

/-- Element-level side of `ext_eq_build_fields`. -/
theorem ext_eq_build_elems (env : String → Option String)
    (ev : PyVal → Except String PyVal) (ll deep : Bool) :
    ∀ l, phFreeElems l = true → extElems env ev ll deep l = .ok (buildElems deep l)
  | [], _ => rfl
  | v :: rest, h => by
    have hv : phFreeVal v = true := by
      have h2 := h
      simp only [phFreeElems, Bool.and_eq_true] at h2
      exact h2.1
    have hr : phFreeElems rest = true := by
      have h2 := h
      simp only [phFreeElems, Bool.and_eq_true] at h2
      exact h2.2
    cases v with
    | vDict d =>
      have hd : phFreeFields d = true := by
        have h2 := hv
        simp only [phFreeVal, Bool.and_eq_true] at h2
        exact h2.2
      simp [extElems, buildElems, ext_eq_build_fields env ev ll deep d hd,
        ext_eq_build_elems env ev ll deep rest hr]
    | vNone => simp [extElems, buildElems, ext_eq_build_elems env ev ll deep rest hr]
    | vBool b => simp [extElems, buildElems, ext_eq_build_elems env ev ll deep rest hr]
    | vInt n => simp [extElems, buildElems, ext_eq_build_elems env ev ll deep rest hr]
    | vStr s => simp [extElems, buildElems, ext_eq_build_elems env ev ll deep rest hr]
    | vList l2 => simp [extElems, buildElems, ext_eq_build_elems env ev ll deep rest hr]
    | vRick f => simp [extElems, buildElems, ext_eq_build_elems env ev ll deep rest hr]

end

/-- C1 (counterexample): the claim "get(k) returns exactly M[k] for every
value stored under k including falsy values such as 0" is false.  For
M = `\x7b"a": 0\x7d`, `get("a")` returns the default `None`, not the
stored `0`: `_recursive_search` does find `0` at top level, but `get`
treats the falsy result as "not found", falls back to the lower- and
upper-case searches, and finally returns the default. -/
theorem c1_falsy_value_cex :
    get (iternalize false [("a", .vInt 0)]) "a" .vNone = .vNone ∧
    PyVal.vNone ≠ PyVal.vInt 0 :=
  ⟨rfl, fun h => PyVal.noConfusion h⟩

/-- C1 (amended): for every key `k` present at the top level of `M`,
`get(k)` on the node built from `M` (with `deep = false`) returns the
value the build stored under `k` (`M[k]` itself for non-mapping values, a
child node for mapping values) — provided that stored value is truthy.
A falsy stored value (`0`, `""`, `False`, `None`, an empty container) is
never returned: `get` treats it as not found and falls back to the
case-variant searches and, failing those, to the default, as the
counterexample shows. -/
theorem c1_get_top_level_truthy (m : List (String × PyVal)) (k : String)
    (v d : PyVal) (hk : List.lookup k m = some v)
    (ht : truthy (buildVal false v) = true) :
    get (iternalize false m) k d = buildVal false v := by
  have hs : recursiveSearch k (iternalize false m) = some (buildVal false v) := by
    simp [recursiveSearch, lookup_iternalize false k m, hk]
  simp [get, hs, ht]

/-- C1 (witness): the amended claim at M = `\x7b"a": 5\x7d`. -/
theorem c1_get_top_level_truthy_witness :
    List.lookup "a" [("a", PyVal.vInt 5)] = some (PyVal.vInt 5) ∧
    truthy (buildVal false (PyVal.vInt 5)) = true ∧
    get (iternalize false [("a", PyVal.vInt 5)]) "a" PyVal.vNone
      = buildVal false (PyVal.vInt 5) :=
  ⟨rfl, rfl, c1_get_top_level_truthy [("a", PyVal.vInt 5)] "a" (PyVal.vInt 5)
    PyVal.vNone rfl rfl⟩

/-- C2 (confirmed): for every mapping without nested lists (values are
scalars or nested mappings, recursively), `dict()` of the node built from
it returns the mapping exactly — every nested mapping became a child node
and is deconstructed back, with no keys added or lost. -/
theorem c2_dict_inverts_build (deep : Bool) (m : List (String × PyVal))
    (h : plainFields m = true) : dict (iternalize deep m) = m :=
  dict_iternalize_plain deep m h

/-- C2 (witness): round trip of `\x7b"a": \x7b"b": 1\x7d, "c": "z"\x7d`. -/
theorem c2_dict_inverts_build_witness :
    plainFields [("a", PyVal.vDict [("b", PyVal.vInt 1)]), ("c", PyVal.vStr "z")] = true ∧
    dict (iternalize true [("a", PyVal.vDict [("b", PyVal.vInt 1)]), ("c", PyVal.vStr "z")])
      = [("a", PyVal.vDict [("b", PyVal.vInt 1)]), ("c", PyVal.vStr "z")] :=
  ⟨rfl, c2_dict_inverts_build true
    [("a", PyVal.vDict [("b", PyVal.vInt 1)]), ("c", PyVal.vStr "z")] rfl⟩

/-- C5 (confirmed): the build stores each value as the claim describes:
a mapping value always becomes a child node; a list value with
`deep = true` becomes a new list where each mapping element becomes a
child node and each non-mapping element passes through; a list value
with `deep = false`, and every other value, is stored unchanged. -/
theorem c5_build_value_cases (deep : Bool) (m : List (String × PyVal))
    (k : String) :
    List.lookup k (iternalize deep m) =
      Option.map (fun v =>
        match v with
        | .vDict d => .vRick (iternalize deep d)
        | .vList l =>
          if deep then
            .vList (l.map (fun i =>
              match i with
              | .vDict d2 => .vRick (iternalize deep d2)
              | _ => i))
          else .vList l
        | _ => v) (List.lookup k m) := by
  rw [lookup_iternalize deep k m]
  congr 1
  funext v
  cases v <;> simp [buildVal, buildElems_eq_map]

/-- C5 (witness): the spec's own example list `[1, \x7b"d": 2\x7d]` under
`deep = true`: the mapping element becomes a child node, `1` passes
through; and under `deep = false` the list is stored unchanged. -/
theorem c5_build_value_cases_witness :
    List.lookup "c" [("c", PyVal.vList [PyVal.vInt 1, PyVal.vDict [("d", PyVal.vInt 2)]])]
      = some (PyVal.vList [PyVal.vInt 1, PyVal.vDict [("d", PyVal.vInt 2)]]) ∧
    List.lookup "c" (iternalize true
        [("c", PyVal.vList [PyVal.vInt 1, PyVal.vDict [("d", PyVal.vInt 2)]])])
      = some (PyVal.vList [PyVal.vInt 1, PyVal.vRick [("d", PyVal.vInt 2)]]) ∧
    List.lookup "c" (iternalize false
        [("c", PyVal.vList [PyVal.vInt 1, PyVal.vDict [("d", PyVal.vInt 2)]])])
      = some (PyVal.vList [PyVal.vInt 1, PyVal.vDict [("d", PyVal.vInt 2)]]) :=
  ⟨rfl,
   Eq.trans (c5_build_value_cases true
     [("c", PyVal.vList [PyVal.vInt 1, PyVal.vDict [("d", PyVal.vInt 2)]])] "c") rfl,
   Eq.trans (c5_build_value_cases false
     [("c", PyVal.vList [PyVal.vInt 1, PyVal.vDict [("d", PyVal.vInt 2)]])] "c") rfl⟩

/-- C8 (counterexample): the claim "for every Node tree containing a key
stored as `foo` (with a truthy value) and no key `FOO` anywhere,
`get("FOO")` returns the value stored under `foo`" is false.  In the tree
built from `\x7b"foo": 0, "x": \x7b"foo": 1\x7d\x7d` the key `foo` is
stored with truthy value `1` inside the child node `x` and no key `FOO`
exists anywhere, yet `get("FOO")` returns the default `None`: the
lower-case search finds the falsy top-level `foo` first, discards it, and
the upper-case fallback finds nothing. -/
theorem c8_shadowed_fallback_cex :
    get (iternalize false
        [("foo", PyVal.vInt 0), ("x", PyVal.vDict [("foo", PyVal.vInt 1)])])
      "FOO" PyVal.vNone = PyVal.vNone ∧
    PyVal.vNone ≠ PyVal.vInt 1 ∧ PyVal.vNone ≠ PyVal.vInt 0 :=
  ⟨rfl, fun h => PyVal.noConfusion h, fun h => PyVal.noConfusion h⟩

/-- C8 (amended): `get` tries the exact key, then the lowercased key,
then the uppercased key, each by a full recursive search, and returns the
first search result that is truthy.  In particular `get("FOO")` returns
the truthy value found under `"foo"` whenever the exact search finds
nothing, and symmetrically `get("foo")` returns the truthy value found
under `"FOO"` whenever the exact (= lowercase) search finds nothing —
provided the corresponding case-variant search actually yields a truthy
value (the search does not descend into lists, and a falsy match found
first makes that case variant yield nothing usable). -/
theorem c8_case_fallback (fields : List (String × PyVal)) (key : String)
    (v d : PyVal) :
    (recursiveSearch key fields = none →
      recursiveSearch (pyLower key) fields = some v → truthy v = true →
      get fields key d = v) ∧
    (recursiveSearch key fields = none →
      recursiveSearch (pyLower key) fields = none →
      recursiveSearch (pyUpper key) fields = some v → truthy v = true →
      get fields key d = v) := by
  constructor
  · intro h0 h1 ht
    simp [get, h0, h1, ht, truthy_vNone]
  · intro h0 h1 h2 ht
    simp [get, h0, h1, h2, ht, truthy_vNone]

/-- C8 (witness): `get("FOO")` finds `foo = 1` in `\x7b"foo": 1\x7d`, and
`get("foo")` finds `FOO = 2` in `\x7b"FOO": 2\x7d`. -/
theorem c8_case_fallback_witness :
    (recursiveSearch "FOO" [("foo", PyVal.vInt 1)] = none ∧
     recursiveSearch (pyLower "FOO") [("foo", PyVal.vInt 1)] = some (PyVal.vInt 1) ∧
     get [("foo", PyVal.vInt 1)] "FOO" PyVal.vNone = PyVal.vInt 1) ∧
    (recursiveSearch "foo" [("FOO", PyVal.vInt 2)] = none ∧
     recursiveSearch (pyUpper "foo") [("FOO", PyVal.vInt 2)] = some (PyVal.vInt 2) ∧
     get [("FOO", PyVal.vInt 2)] "foo" PyVal.vNone = PyVal.vInt 2) :=
  ⟨⟨rfl, rfl,
    (c8_case_fallback [("foo", PyVal.vInt 1)] "FOO" (PyVal.vInt 1) PyVal.vNone).1
      rfl rfl rfl⟩,
   ⟨rfl, rfl,
    (c8_case_fallback [("FOO", PyVal.vInt 2)] "foo" (PyVal.vInt 2) PyVal.vNone).2
      rfl rfl rfl rfl⟩⟩

/-- C9 (counterexample): the claim "`has(k)` is true iff
`get(k, sentinel)` is not the sentinel, for every tree and every key
under which a truthy value is stored" is false.  In the tree built from
`\x7b"x": \x7b"k": 1\x7d\x7d` the key `k` holds the truthy value `1`
inside the child node, `get("k", sentinel)` finds it, but `has("k")`
(shallow by default) only checks the top level and returns `False`. -/
theorem c9_nested_key_cex :
    ¬ ((has (iternalize false [("x", PyVal.vDict [("k", PyVal.vInt 1)])]) "k" false = true) ↔
       (get (iternalize false [("x", PyVal.vDict [("k", PyVal.vInt 1)])]) "k"
          (PyVal.vStr "sentinel") ≠ PyVal.vStr "sentinel")) := by
  intro h
  have h2 : get (iternalize false [("x", PyVal.vDict [("k", PyVal.vInt 1)])]) "k"
      (PyVal.vStr "sentinel") = PyVal.vInt 1 := rfl
  have h3 := h.mpr (by rw [h2]; intro he; exact PyVal.noConfusion he)
  have h4 : has (iternalize false [("x", PyVal.vDict [("k", PyVal.vInt 1)])]) "k" false
      = false := rfl
  rw [h4] at h3
  exact Bool.false_ne_true h3

/-- C9 (amended): for every key stored at the *top level* of the tree
with a truthy value distinct from the sentinel, the presence check via
`has` (default, shallow) and the presence check via `get` with a sentinel
default agree: `has(k)` is true and `get(k, sentinel)` is not the
sentinel.  For truthy keys stored only at nested levels the two checks
disagree (shallow `has` misses them while `get` searches recursively), as
the counterexample shows. -/
theorem c9_has_get_agree_top_level (fields : List (String × PyVal)) (key : String)
    (v d : PyVal) (hk : List.lookup key fields = some v) (ht : truthy v = true)
    (hd : v ≠ d) :
    has fields key false = true ∧ get fields key d ≠ d := by
  have hs : recursiveSearch key fields = some v := by
    simp [recursiveSearch, hk]
  refine ⟨by simp [has, hk], ?_⟩
  have hg : get fields key d = v := by simp [get, hs, ht]
  rw [hg]
  exact hd

/-- C9 (witness): the amended claim at the tree `\x7b"k": 1\x7d` with
sentinel `"sentinel"`. -/
theorem c9_has_get_agree_top_level_witness :
    List.lookup "k" [("k", PyVal.vInt 1)] = some (PyVal.vInt 1) ∧
    truthy (PyVal.vInt 1) = true ∧
    (has [("k", PyVal.vInt 1)] "k" false = true ∧
     get [("k", PyVal.vInt 1)] "k" (PyVal.vStr "sentinel") ≠ PyVal.vStr "sentinel") :=
  ⟨rfl, rfl, c9_has_get_agree_top_level [("k", PyVal.vInt 1)] "k" (PyVal.vInt 1)
    (PyVal.vStr "sentinel") rfl rfl (fun h => PyVal.noConfusion h)⟩

/-- C3 (code bug): for an open text stream whose content fails both the
YAML and the JSON parse (e.g. a single tab character — invalid as YAML,
and any suffix of it invalid as JSON), `BasicRick.__init__` does not
raise the documented `ValueError`: after the second `except` swallows the
JSON failure, control falls through — there is no `return` or `raise` at
the end of the stream branch — to `os.path.isfile(base)` with `base`
still bound to the stream, and `os.stat` raises an uncaught `TypeError`.
This contradicts the constructor's own docstring ("Raises: ValueError: If
the given base object can not be handled"). -/
theorem c3_stream_fallthrough_typeerror (yamlP jsonP : String → Option PyVal)
    (deep : Bool) (hy : yamlP "\t" = none) (hj : jsonP "" = none) :
    rickInit yamlP jsonP deep (.stream "\t" "") = .typeError ∧
    rickInit yamlP jsonP deep (.stream "\t" "") ≠ .valueError := by
  have h1 : rickInit yamlP jsonP deep (.stream "\t" "") = .typeError := by
    simp [rickInit, parseAttempt, hy, hj]
  refine ⟨h1, ?_⟩
  rw [h1]
  intro h
  exact InitResult.noConfusion h

/-- C3 (witness): the failing stream input with parsers that reject the
tab character and the consumed (empty) remainder. -/
theorem c3_stream_fallthrough_typeerror_witness :
    (fun _ : String => (none : Option PyVal)) "\t" = none ∧
    rickInit (fun _ => none) (fun _ => none) false (.stream "\t" "") = .typeError :=
  ⟨rfl, (c3_stream_fallthrough_typeerror (fun _ => none) (fun _ => none) false
    rfl rfl).1⟩

/-- C4 (confirmed): for every node tree built with `deep = false` from a
mapping (no pre-built nodes among the dict values), serializing via
`to_yaml_string` — i.e. `yaml.safe_dump(self.dict())` — and rebuilding
from the parsed text yields a node equal to the original under the
class's own equality (equal text representations).  The YAML layer is an
external collaborator: the hypothesis `hr` states that parsing the dumped
text returns the dumped mapping unchanged (`reparse` is the composite
parse-after-dump).  What is proved about the repository's code is that
`dict()` exactly inverts the `deep = false` build, so the rebuilt tree is
structurally identical and hence `__eq__`-equal. -/
theorem c4_yaml_roundtrip (m : List (String × PyVal)) (h : noRickFields m = true)
    (reparse : List (String × PyVal) → List (String × PyVal))
    (hr : reparse (dict (iternalize false m)) = dict (iternalize false m)) :
    rickEq (iternalize false (reparse (dict (iternalize false m))))
      (iternalize false m) = true := by
  rw [hr, dict_iternalize_noRick m h]
  simp [rickEq]

/-- C4 (witness): round trip of
`\x7b"b": \x7b"c": 2\x7d, "a": [1, \x7b"d": 3\x7d]\x7d` with a faithful
(identity) serializer round trip. -/
theorem c4_yaml_roundtrip_witness :
    noRickFields [("b", PyVal.vDict [("c", PyVal.vInt 2)]),
      ("a", PyVal.vList [PyVal.vInt 1, PyVal.vDict [("d", PyVal.vInt 3)]])] = true ∧
    rickEq
      (iternalize false (id (dict (iternalize false
        [("b", PyVal.vDict [("c", PyVal.vInt 2)]),
         ("a", PyVal.vList [PyVal.vInt 1, PyVal.vDict [("d", PyVal.vInt 3)]])]))))
      (iternalize false
        [("b", PyVal.vDict [("c", PyVal.vInt 2)]),
         ("a", PyVal.vList [PyVal.vInt 1, PyVal.vDict [("d", PyVal.vInt 3)]])]) = true :=
  ⟨rfl, c4_yaml_roundtrip
    [("b", PyVal.vDict [("c", PyVal.vInt 2)]),
     ("a", PyVal.vList [PyVal.vInt 1, PyVal.vDict [("d", PyVal.vInt 3)]])] rfl id rfl⟩

/-- C6 (confirmed): an `env`-typed placeholder value resolves through the
environment, for any `eval`, any `load_lambda` setting, and either `deep`
setting.  First conjunct: the spec's example — with `MY_VAR` unset, the
field `x` of the node built from
`\x7b"x": \x7b"type": "env", "load": "MY_VAR", "default": "fallback"\x7d\x7d`
holds the scalar `"fallback"`, not a child node.  Second conjunct: when
the named variable is set, its value is stored.  Third conjunct: when it
is unset and no `default` field exists, `None` is stored. -/
theorem c6_env_placeholder (env : String → Option String)
    (ev : PyVal → Except String PyVal) (ll deep : Bool) :
    (env "MY_VAR" = none →
      extIternalize env ev ll deep
        [("x", .vDict [("type", .vStr "env"), ("load", .vStr "MY_VAR"),
          ("default", .vStr "fallback")])] = .ok [("x", .vStr "fallback")]) ∧
    (∀ (k name s : String) (d : List (String × PyVal)),
      List.lookup "type" d = some (.vStr "env") →
      List.lookup "load" d = some (.vStr name) →
      env name = some s →
      extIternalize env ev ll deep [(k, .vDict d)] = .ok [(k, .vStr s)]) ∧
    (∀ (k name : String) (d : List (String × PyVal)),
      List.lookup "type" d = some (.vStr "env") →
      List.lookup "load" d = some (.vStr name) →
      env name = none →
      List.lookup "default" d = none →
      extIternalize env ev ll deep [(k, .vDict d)] = .ok [(k, .vNone)]) := by
  refine ⟨?_, ?_, ?_⟩
  · intro h
    have base : extIternalize env ev ll deep
        [("x", .vDict [("type", .vStr "env"), ("load", .vStr "MY_VAR"),
          ("default", .vStr "fallback")])] =
        .ok [("x", (match env "MY_VAR" with
                    | some s => PyVal.vStr s
                    | none => PyVal.vStr "fallback"))] := rfl
    rw [base, h]
  · intro k name s d htype hload henv
    simp only [extIternalize, extVal]
    rw [htype, hload]
    cases hdef : List.lookup "default" d <;> simp [henv, hdef]
  · intro k name d htype hload henv hdef
    simp only [extIternalize, extVal]
    rw [htype, hload, hdef]
    simp [henv]

/-- C6 (witness): the three conjuncts at concrete environments: `MY_VAR`
unset gives `"fallback"`; `HOME` set to `/root` gives `"/root"`; `NOPE`
unset with no default gives `None`. -/
theorem c6_env_placeholder_witness :
    extIternalize (fun _ => none) (fun v => .ok v) false false
      [("x", PyVal.vDict [("type", PyVal.vStr "env"), ("load", PyVal.vStr "MY_VAR"),
        ("default", PyVal.vStr "fallback")])] = .ok [("x", PyVal.vStr "fallback")] ∧
    extIternalize (fun n => if n = "HOME" then some "/root" else none)
      (fun v => .ok v) false false
      [("y", PyVal.vDict [("type", PyVal.vStr "env"), ("load", PyVal.vStr "HOME")])]
      = .ok [("y", PyVal.vStr "/root")] ∧
    extIternalize (fun _ => none) (fun v => .ok v) false false
      [("z", PyVal.vDict [("type", PyVal.vStr "env"), ("load", PyVal.vStr "NOPE")])]
      = .ok [("z", PyVal.vNone)] :=
  ⟨(c6_env_placeholder (fun _ => none) (fun v => .ok v) false false).1 rfl,
   (c6_env_placeholder (fun n => if n = "HOME" then some "/root" else none)
     (fun v => .ok v) false false).2.1 "y" "HOME" "/root"
     [("type", PyVal.vStr "env"), ("load", PyVal.vStr "HOME")] rfl rfl rfl,
   (c6_env_placeholder (fun _ => none) (fun v => .ok v) false false).2.2 "z" "NOPE"
     [("type", PyVal.vStr "env"), ("load", PyVal.vStr "NOPE")] rfl rfl rfl rfl⟩

/-- C7 (confirmed): for a `lambda`-typed placeholder value, when
`load_lambda` is false (the default) the raw unevaluated `load` value is
stored under the key and construction succeeds with no error — the
result does not depend on `eval` at all; the `load` content reaches
`eval` only when `load_lambda` is true. -/
theorem c7_lambda_flag_gate (env : String → Option String)
    (ev : PyVal → Except String PyVal) (deep : Bool) (k : String)
    (d : List (String × PyVal)) (lv : PyVal)
    (htype : List.lookup "type" d = some (.vStr "lambda"))
    (hload : List.lookup "load" d = some lv) :
    extIternalize env ev false deep [(k, .vDict d)] = .ok [(k, lv)] ∧
    extIternalize env ev true deep [(k, .vDict d)] =
      (match ev lv with
       | .ok r => .ok [(k, r)]
       | .error e => .error e) := by
  constructor
  · simp only [extIternalize, extVal]
    rw [htype, hload]
    simp
  · simp only [extIternalize, extVal]
    rw [htype, hload]
    cases hev : ev lv <;> simp [hev]

/-- C7 (witness): with `load_lambda` disabled the string `"1+1"` is
stored raw (whatever `eval` would do); with it enabled the `eval` result
is stored. -/
theorem c7_lambda_flag_gate_witness :
    extIternalize (fun _ => none) (fun _ => .ok (PyVal.vInt 7)) false false
      [("f", PyVal.vDict [("type", PyVal.vStr "lambda"), ("load", PyVal.vStr "1+1")])]
      = .ok [("f", PyVal.vStr "1+1")] ∧
    extIternalize (fun _ => none) (fun _ => .ok (PyVal.vInt 7)) true false
      [("f", PyVal.vDict [("type", PyVal.vStr "lambda"), ("load", PyVal.vStr "1+1")])]
      = .ok [("f", PyVal.vInt 7)] :=
  ⟨(c7_lambda_flag_gate (fun _ => none) (fun _ => .ok (PyVal.vInt 7)) false "f"
     [("type", PyVal.vStr "lambda"), ("load", PyVal.vStr "1+1")]
     (PyVal.vStr "1+1") rfl rfl).1,
   (c7_lambda_flag_gate (fun _ => none) (fun _ => .ok (PyVal.vInt 7)) false "f"
     [("type", PyVal.vStr "lambda"), ("load", PyVal.vStr "1+1")]
     (PyVal.vStr "1+1") rfl rfl).2⟩

/-- C10 (confirmed): on a mapping in which no nested mapping carries a
`type` field equal to `env` or `lambda`, the placeholder-resolver variant
succeeds (for any environment, any `eval`, and either `load_lambda`
setting) and its tree has the same `dict()` deconstruction as the base
builder's tree built with the same `deep` flag. -/
theorem c10_placeholder_free_refines_base (env : String → Option String)
    (ev : PyVal → Except String PyVal) (ll deep : Bool)
    (m : List (String × PyVal)) (h : phFreeFields m = true) :
    Except.map dict (extIternalize env ev ll deep m) =
      .ok (dict (iternalize deep m)) := by
  rw [ext_eq_build_fields env ev ll deep m h]
  rfl

/-- C10 (witness): both builders on
`\x7b"a": \x7b"b": 1\x7d, "c": [\x7b"d": 2\x7d, 3]\x7d` with
`deep = true` and `load_lambda` enabled. -/
theorem c10_placeholder_free_refines_base_witness :
    phFreeFields [("a", PyVal.vDict [("b", PyVal.vInt 1)]),
      ("c", PyVal.vList [PyVal.vDict [("d", PyVal.vInt 2)], PyVal.vInt 3])] = true ∧
    Except.map dict (extIternalize (fun _ => some "ignored")
      (fun _ => .error "eval crashed") true true
      [("a", PyVal.vDict [("b", PyVal.vInt 1)]),
       ("c", PyVal.vList [PyVal.vDict [("d", PyVal.vInt 2)], PyVal.vInt 3])]) =
      .ok (dict (iternalize true
        [("a", PyVal.vDict [("b", PyVal.vInt 1)]),
         ("c", PyVal.vList [PyVal.vDict [("d", PyVal.vInt 2)], PyVal.vInt 3])])) :=
  ⟨rfl, c10_placeholder_free_refines_base (fun _ => some "ignored")
    (fun _ => .error "eval crashed") true true
    [("a", PyVal.vDict [("b", PyVal.vInt 1)]),
     ("c", PyVal.vList [PyVal.vDict [("d", PyVal.vInt 2)], PyVal.vInt 3])] rfl⟩

end PickleRick
